import Mathlib

set_option maxHeartbeats 1000000

/-!
Verification of the podcast catalog collector (`main.go`).

The program obtains an OAuth2 client-credentials token, walks a paginated
catalog API accumulating episode records, and rewrites a key-value table
with the result.  The development below is a shallow embedding of that
code: HTTP traffic is modelled by an oracle mapping each URL to the
outcome the network would deliver, `log.Fatalf` (which aborts the whole
run) is modelled as an error result, and the DynamoDB table is modelled
as a list of rows keyed as `CreateTable` declares.
-/

/-- Episode record (`Item` in `main.go`).  Only `Name` and `Description`
are ever read downstream (by `PutItem`); `id` stands in for the remaining
passthrough metadata fields, which the program parses but never uses. -/

structure Item where
  name : String
  description : String
  id : String
  deriving DecidableEq

/-- The paginated container nested under `episodes` in the first-page
shape (`ProgramInfo.Episodes` in `main.go`).  Fields the loop never reads
(`href`, `limit`, `offset`, `previous`) are omitted; `total` is parsed by
the program but never read. -/
structure Episodes where
  items : List Item
  next : String
  total : Int
  deriving DecidableEq

/-- First-page response shape (`ProgramInfo` in `main.go`).  The loop
reads only `TotalEpisodes` and the nested `Episodes` container; the many
other JSON fields are parsed but never used and are omitted here. -/
structure ProgramInfo where
  episodes : Episodes
  totalEpisodes : Int
  deriving DecidableEq

/-- Subsequent-page response shape (`ProgramInfoNext` in `main.go`): the
items container flat at top level. -/
structure ProgramInfoNext where
  items : List Item
  next : String
  total : Int
  deriving DecidableEq

/-- A raw response body, abstracted by what it parses as.  Go's
`json.Unmarshal` into either struct may succeed or fail independently,
so a body carries its (possible) parse under each of the two shapes. -/
structure Body where
  asFirst : Option ProgramInfo
  asNext : Option ProgramInfoNext
  deriving DecidableEq

/-- Outcome the network delivers for one page URL: a transport-level
failure (`client.Do` or `io.ReadAll` error) or a status code with a body. -/
inductive HttpOutcome where
  | transportFail : HttpOutcome
  | response (statusCode : Int) (body : Body) : HttpOutcome
  deriving DecidableEq

/-- Error taxonomy: transport failure, non-200 upstream status, or a JSON
body that does not parse as the expected shape. -/
inductive FetchError where
  | transport : FetchError
  | upstreamStatus (code : Int) : FetchError
  | parse : FetchError
  deriving DecidableEq

/-- `GetProgramData` (`main.go` lines 144-169): returns the body on
status 200, an error on transport failure, and aborts via `log.Fatalf`
on any other status — the abort is modelled as the `upstreamStatus`
error, since both end the run at once. -/
def GetProgramData (outcome : HttpOutcome) : Except FetchError Body :=
  match outcome with
  | .transportFail => .error .transport
  | .response code body =>
    if code ≠ 200 then .error (.upstreamStatus code) else .ok body

/-- Mutable state of the collection loop in `main`:
`totalItem`, `readItem`, `items`, and the current `url`. -/
structure LoopState where
  totalItem : Int
  readItem : Int
  items : List Item
  url : String
  deriving DecidableEq

/-- Result of one iteration of the loop body: continue with a new state,
break with the accumulated items, or abort with an error.  Each result
carries the list of URLs fetched so far. -/
inductive IterResult where
  | next (st : LoopState) (tr : List String)
  | done (items : List Item) (tr : List String)
  | failed (e : FetchError) (tr : List String)
  deriving DecidableEq

/-- One iteration of the loop body in `main` (lines 308-350), at loop
counter `i` with state `st` and fetch trace `tr`:
fetch the current URL, parse as the first-page shape when `i = 0`
(setting `totalItem`) and the subsequent-page shape otherwise, append
the page's items, break when the page's next link is empty, and
otherwise break when `totalItem == readItem`.  `log.Fatal` on a parse
failure is modelled as the `parse` error. -/
def loopIter (world : String → HttpOutcome) (i : Nat) (st : LoopState)
    (tr : List String) : IterResult :=
  let tr1 := tr ++ [st.url]
  match GetProgramData (world st.url) with
  | .error e => .failed e tr1
  | .ok body =>
    if i = 0 then
      match body.asFirst with
      | none => .failed .parse tr1
      | some pi =>
        let totalItem1 := pi.totalEpisodes
        let readItem1 := st.readItem + (pi.episodes.items.length : Int)
        let items1 := st.items ++ pi.episodes.items
        if pi.episodes.next ≠ "" then
          if totalItem1 = readItem1 then .done items1 tr1
          else .next ⟨totalItem1, readItem1, items1, pi.episodes.next⟩ tr1
        else .done items1 tr1
    else
      match body.asNext with
      | none => .failed .parse tr1
      | some pin =>
        let readItem1 := st.readItem + (pin.items.length : Int)
        let items1 := st.items ++ pin.items
        if pin.next ≠ "" then
          if st.totalItem = readItem1 then .done items1 tr1
          else .next ⟨st.totalItem, readItem1, items1, pin.next⟩ tr1
        else .done items1 tr1

/-- Final outcome of the collection loop, with the list of URLs fetched.
`outOfFuel` is an artifact of the bounded model: the Go loop has no
iteration bound, so runs are analysed at sufficient fuel. -/
inductive CollectResult where
  | done (items : List Item) (tr : List String)
  | failed (e : FetchError) (tr : List String)
  | outOfFuel (tr : List String)
  deriving DecidableEq

/-- The collection loop of `main`, iterated with fuel. -/
def collectLoop (world : String → HttpOutcome) :
    Nat → Nat → LoopState → List String → CollectResult
  | 0, _, _, tr => .outOfFuel tr
  | fuel + 1, i, st, tr =>
    match loopIter world i st tr with
    | .next st2 tr2 => collectLoop world fuel (i + 1) st2 tr2
    | .done its tr2 => .done its tr2
    | .failed e tr2 => .failed e tr2

/-- The paginated collection phase of `main`: the loop started from the
initial URL with `totalItem = 0`, `readItem = 0`, no items. -/
def collect (world : String → HttpOutcome) (initialURL : String)
    (fuel : Nat) : CollectResult :=
  collectLoop world fuel 0 ⟨0, 0, [], initialURL⟩ []

/-- Instrumented semantics: the loop state and trace after exactly `n`
continuing iterations from counter `i`, or `none` when the loop breaks,
aborts, or was never in that state. -/
def stateAfter (world : String → HttpOutcome) :
    Nat → Nat → LoopState → List String → Option (LoopState × List String)
  | 0, _, st, tr => some (st, tr)
  | n + 1, i, st, tr =>
    match loopIter world i st tr with
    | .next st2 tr2 => stateAfter world n (i + 1) st2 tr2
    | _ => none

/-- The item list the loop would extract from the page at `u` when it is
page number `i` of the run (first-page shape at `i = 0`, subsequent-page
shape otherwise). -/
def pageItemsAt (world : String → HttpOutcome) (i : Nat) (u : String) :
    List Item :=
  match world u with
  | .transportFail => []
  | .response _ b =>
    if i = 0 then (b.asFirst.map (fun pi => pi.episodes.items)).getD []
    else (b.asNext.map (fun pin => pin.items)).getD []

/-- Concatenation of the item lists of the pages at the traced URLs,
numbering pages from `i`. -/
def traceItems (world : String → HttpOutcome) : Nat → List String → List Item
  | _, [] => []
  | i, u :: us => pageItemsAt world i u ++ traceItems world (i + 1) us

/-- Sum of the per-page item counts over the traced URLs. -/
def sumPageLens (world : String → HttpOutcome) : Nat → List String → Nat
  | _, [] => 0
  | i, u :: us => (pageItemsAt world i u).length + sumPageLens world (i + 1) us

def firstPageTotal (world : String → HttpOutcome) (u0 : String) : Option Int :=
  match world u0 with
  | .transportFail => none
  | .response code b =>
    if code = 200 then b.asFirst.map (fun pi => pi.totalEpisodes) else none

/-- What the loop's parse step yields from body `b` at page number `i`:
the page's item list and next link, under the shape selected by `i`. -/
def parsedPage (b : Body) (i : Nat) : Option (List Item × String) :=
  if i = 0 then b.asFirst.map (fun pi => (pi.episodes.items, pi.episodes.next))
  else b.asNext.map (fun pin => (pin.items, pin.next))

/-- Classifies whether fetching `u` as page number `i` fails, and how:
transport failure, non-200 status, or a body that does not parse under
the shape the loop expects at `i`. -/
def pageFailure (world : String → HttpOutcome) (i : Nat) (u : String) :
    Option FetchError :=
  match world u with
  | .transportFail => some .transport
  | .response code b =>
    if code ≠ 200 then some (.upstreamStatus code)
    else if i = 0 then
      match b.asFirst with
      | none => some .parse
      | some _ => none
    else
      match b.asNext with
      | none => some .parse
      | some _ => none

/-- Concrete episode used in scenario runs. -/
def epA : Item := ⟨"A", "descA", "a1"⟩

/-- Concrete episode used in scenario runs. -/
def epB : Item := ⟨"B", "descB", "b1"⟩

/-- Concrete episode used in scenario runs. -/
def epC : Item := ⟨"C", "descC", "c1"⟩

/-- Two-page upstream for the C4 scenario: first page with
`totalEpisodes = 3`, items `[A, B]`, next link `"page2"`; second page
with items `[C]` and an empty next link. -/
def c4World : String → HttpOutcome := fun u =>
  if u = "page1" then .response 200 ⟨some ⟨⟨[epA, epB], "page2", 3⟩, 3⟩, none⟩
  else if u = "page2" then .response 200 ⟨none, some ⟨[epC], "", 3⟩⟩
  else .transportFail

/-- First page for the C1 scenario: `totalEpisodes = 2`, items `[A, B]`,
and an (inconsistently) non-empty next link. -/
def c1PI : ProgramInfo := ⟨⟨[epA, epB], "page2", 2⟩, 2⟩

def c1Body : Body := ⟨some c1PI, none⟩

def c1World : String → HttpOutcome := fun u =>
  if u = "start" then .response 200 c1Body else .transportFail

/-- Two-page upstream for the C2 witness run. -/
def c2World : String → HttpOutcome := fun u =>
  if u = "p0" then .response 200 ⟨some ⟨⟨[epA, epB], "p1", 3⟩, 3⟩, none⟩
  else if u = "p1" then .response 200 ⟨none, some ⟨[epC], "", 3⟩⟩
  else .transportFail

/-- Upstream for the C3 witness: the page at `"p1"` has one item and an
empty next link, while the expected total (10) is far from reached. -/
def c3Body : Body := ⟨none, some ⟨[epC], "", 10⟩⟩

def c3World : String → HttpOutcome := fun u =>
  if u = "p1" then .response 200 c3Body else .transportFail

/-- Upstream for the C5 witness: the first page reports 5 total episodes
but carries only two items, so the loop continues to `"p1"`. -/
def c5World : String → HttpOutcome := fun u =>
  if u = "q0" then .response 200 ⟨some ⟨⟨[epA, epB], "p1", 5⟩, 5⟩, none⟩
  else .transportFail

def c5St : LoopState := ⟨5, 2, [epA, epB], "p1"⟩

/-- Upstream for the C6 witness: the page fetch returns HTTP 500. -/
def c6World : String → HttpOutcome := fun u =>
  if u = "e0" then .response 500 ⟨none, none⟩ else .transportFail

/-- Upstream for the C7 witness: same shape as the C5 witness world. -/
def c7World : String → HttpOutcome := fun u =>
  if u = "t0" then .response 200 ⟨some ⟨⟨[epA, epB], "p1", 7⟩, 7⟩, none⟩
  else .transportFail

def c7St : LoopState := ⟨7, 2, [epA, epB], "p1"⟩

/-- Configuration record (`Config` in `main.go`), loaded from
`config.json`. -/
structure Config where
  clientID : String
  clientSecret : String
  tokenURL : String
  region : String
  endpoint : String
  deriving DecidableEq

/-- Parsed token response (`TokenResponse` in `main.go`). -/
structure TokenResponse where
  accessToken : String
  tokenType : String
  expiresIn : Int
  deriving DecidableEq

/-- Outcome the identity provider delivers for the token request:
a transport failure, or a status code with a body abstracted by whether
it parses as a `TokenResponse`. -/
inductive TokenOutcome where
  | transportFail : TokenOutcome
  | response (statusCode : Int) (body : Option TokenResponse) : TokenOutcome
  deriving DecidableEq

/-- The HTTP request `GetAccessToken` constructs (`main.go` lines
108-116).  `url.Values.Encode` percent-encodes and sorts keys
alphabetically, so the form body is modelled as the sorted key-value
list it encodes. -/
structure TokenRequest where
  method : String
  url : String
  contentType : String
  formBody : List (String × String)
  deriving DecidableEq

def buildTokenRequest (config : Config) : TokenRequest :=
  { method := "POST"
    url := config.tokenURL
    contentType := "application/x-www-form-urlencoded"
    formBody := [("client_id", config.clientID),
                 ("client_secret", config.clientSecret),
                 ("grant_type", "client_credentials")] }

/-- Response handling of `GetAccessToken` (`main.go` lines 105-142):
transport errors are returned, a non-200 status aborts via `log.Fatalf`
(modelled as the `upstreamStatus` error), and a body that fails to
unmarshal yields the unmarshal error (modelled as `parse`). -/
def GetAccessToken (config : Config) (outcome : TokenOutcome) :
    Except FetchError TokenResponse :=
  match outcome with
  | .transportFail => .error .transport
  | .response code body =>
    if code ≠ 200 then .error (.upstreamStatus code)
    else
      match body with
      | none => .error .parse
      | some t => .ok t

/-- An HTTP request issued during a run of `main`: the single token
request, or a page fetch. -/
inductive Event where
  | tokenReq (req : TokenRequest)
  | pageReq (url : String)
  deriving DecidableEq

def isTokenReq : Event → Bool
  | .tokenReq _ => true
  | .pageReq _ => false

def traceOf : CollectResult → List String
  | .done _ tr => tr
  | .failed _ tr => tr
  | .outOfFuel tr => tr

/-- The fixed catalog URL `main` builds before the loop. -/
def showURL : String :=
  "https://api.spotify.com/v1/shows/" ++ "4zqDMbg9WSpC5l81gJCfEc"

/-- The sequence of HTTP requests a run of `main` issues: one token
request first; on token failure `main` exits before any page fetch,
otherwise the loop's fetches follow. -/
def mainEvents (config : Config) (tok : TokenOutcome)
    (world : String → HttpOutcome) (fuel : Nat) : List Event :=
  Event.tokenReq (buildTokenRequest config) ::
    (match GetAccessToken config tok with
     | .error _ => []
     | .ok _ => (traceOf (collect world showURL fuel)).map Event.pageReq)

def c8Config : Config :=
  ⟨"id0", "secret0", "https://token.example/api/token", "ap-northeast-1",
    "http://localhost:8000"⟩

/-- Result of the table-drop step: the error it returns (none on
success) and whether a `DeleteTable` API call was issued. -/
structure DeleteTableResult where
  err : Option String
  deleteAttempted : Bool
  deriving DecidableEq

/-- `DeleteTable` (`main.go` lines 205-234), over the outcomes the AWS
SDK would deliver: a session-creation error is returned at once; then
the table is probed with `DescribeTable`, and only when the probe
succeeds is `DeleteTable` called, whose error (if any) is returned.  A
probe failure is swallowed and the function returns success without
deleting. -/
def DeleteTable (sessionErr describeErr deleteErr : Option String) :
    DeleteTableResult :=
  match sessionErr with
  | some e => ⟨some e, false⟩
  | none =>
    match describeErr with
    | some _ => ⟨none, false⟩
    | none => ⟨deleteErr, true⟩

/-- A stored row: `PutItem` (`main.go` lines 183-200) writes exactly the
two attributes `Name` and `Description` of each episode. -/
structure Row where
  name : String
  description : String
  deriving DecidableEq

def itemToRow (it : Item) : Row := ⟨it.name, it.description⟩

/-- DynamoDB put semantics against the key schema of `CreateTable`:
the table's sole hash key is `Name`, so a put replaces the row with the
same name when one exists and appends otherwise. -/
def putRow (table : List Row) (r : Row) : List Row :=
  if table.any (fun q => q.name == r.name) then
    table.map (fun q => if q.name == r.name then r else q)
  else table ++ [r]

/-- `PutItem` (`main.go` lines 171-203): one put per collected episode,
in list order. -/
def PutItem (items : List Item) (table : List Row) : List Row :=
  items.foldl (fun t it => putRow t (itemToRow it)) table

def lookupRow (table : List Row) (n : String) : Option Row :=
  table.find? (fun r => r.name == n)

/-- Key schema declared by `CreateTable` (`main.go` lines 236-279):
table `Program`, a single `HASH` key on the string attribute `Name`. -/
structure TableSchema where
  tableName : String
  hashKey : String
  hashKeyType : String
  deriving DecidableEq

def CreateTable : TableSchema := ⟨"Program", "Name", "S"⟩

/-- A second episode sharing `epA`'s name, with a different description. -/
def epA2 : Item := ⟨"A", "descA-late", "a2"⟩

lemma loopIter_next_spec (world : String → HttpOutcome) (i : Nat) (st : LoopState)
    (tr : List String) (st2 : LoopState) (tr2 : List String)
    (h : loopIter world i st tr = .next st2 tr2) :
    tr2 = tr ++ [st.url] ∧
    st2.items = st.items ++ pageItemsAt world i st.url ∧
    st2.readItem = st.readItem + ((pageItemsAt world i st.url).length : Int) ∧
    st.readItem ≤ st2.readItem ∧
    (i = 0 → firstPageTotal world st.url = some st2.totalItem) ∧
    (i ≠ 0 → st2.totalItem = st.totalItem) := by
  cases hw : world st.url with
  | transportFail =>
    exfalso
    simp [loopIter, GetProgramData, hw] at h
  | response code b =>
    by_cases hc : code = 200
    · subst hc
      by_cases hi : i = 0
      · subst hi
        cases hf : b.asFirst with
        | none => exfalso; simp [loopIter, GetProgramData, hw, hf] at h
        | some pi =>
          simp [loopIter, GetProgramData, hw, hf] at h
          split at h
          · exact IterResult.noConfusion h
          · split at h
            · exact IterResult.noConfusion h
            · injection h with h1 h2
              subst h1
              subst h2
              refine ⟨rfl, ?_, ?_, ?_, ?_, ?_⟩
              · simp [pageItemsAt, hw, hf]
              · simp [pageItemsAt, hw, hf]
              · simp
              · intro _
                simp [firstPageTotal, hw, hf]
              · intro hne
                exact absurd rfl hne
      · cases hf : b.asNext with
        | none => exfalso; simp [loopIter, GetProgramData, hw, hf, hi] at h
        | some pin =>
          simp [loopIter, GetProgramData, hw, hf, hi] at h
          split at h
          · exact IterResult.noConfusion h
          · split at h
            · exact IterResult.noConfusion h
            · injection h with h1 h2
              subst h1
              subst h2
              refine ⟨rfl, ?_, ?_, ?_, ?_, ?_⟩
              · simp [pageItemsAt, hw, hf, hi]
              · simp [pageItemsAt, hw, hf, hi]
              · simp
              · intro h0
                exact absurd h0 hi
              · intro _
                rfl
    · exfalso
      simp [loopIter, GetProgramData, hw, hc] at h

lemma loopIter_done_spec (world : String → HttpOutcome) (i : Nat) (st : LoopState)
    (tr : List String) (its : List Item) (tr2 : List String)
    (h : loopIter world i st tr = .done its tr2) :
    tr2 = tr ++ [st.url] ∧ its = st.items ++ pageItemsAt world i st.url := by
  cases hw : world st.url with
  | transportFail =>
    exfalso
    simp [loopIter, GetProgramData, hw] at h
  | response code b =>
    by_cases hc : code = 200
    · subst hc
      by_cases hi : i = 0
      · subst hi
        cases hf : b.asFirst with
        | none => exfalso; simp [loopIter, GetProgramData, hw, hf] at h
        | some pi =>
          simp [loopIter, GetProgramData, hw, hf] at h
          split at h
          · injection h with h1 h2
            subst h1
            subst h2
            exact ⟨rfl, by simp [pageItemsAt, hw, hf]⟩
          · split at h
            · injection h with h1 h2
              subst h1
              subst h2
              exact ⟨rfl, by simp [pageItemsAt, hw, hf]⟩
            · exact IterResult.noConfusion h
      · cases hf : b.asNext with
        | none => exfalso; simp [loopIter, GetProgramData, hw, hf, hi] at h
        | some pin =>
          simp [loopIter, GetProgramData, hw, hf, hi] at h
          split at h
          · injection h with h1 h2
            subst h1
            subst h2
            exact ⟨rfl, by simp [pageItemsAt, hw, hf, hi]⟩
          · split at h
            · injection h with h1 h2
              subst h1
              subst h2
              exact ⟨rfl, by simp [pageItemsAt, hw, hf, hi]⟩
            · exact IterResult.noConfusion h
    · exfalso
      simp [loopIter, GetProgramData, hw, hc] at h

lemma traceItems_length (world : String → HttpOutcome) :
    ∀ i ds, (traceItems world i ds).length = sumPageLens world i ds := by
  intro i ds
  induction ds generalizing i with
  | nil => rfl
  | cons u us ih => simp [traceItems, sumPageLens, ih]

lemma collectLoop_done_spec (world : String → HttpOutcome) :
    ∀ fuel i st tr its tr2,
      collectLoop world fuel i st tr = .done its tr2 →
      ∃ ds, tr2 = tr ++ ds ∧ its = st.items ++ traceItems world i ds := by
  intro fuel
  induction fuel with
  | zero =>
    intro i st tr its tr2 h
    exact CollectResult.noConfusion h
  | succ fuel ih =>
    intro i st tr its tr2 h
    simp only [collectLoop] at h
    split at h
    · case _ st2 tr3 heq =>
      obtain ⟨ds2, hds2, hits⟩ := ih (i + 1) st2 tr3 its tr2 h
      obtain ⟨h1, h2, -, -, -, -⟩ := loopIter_next_spec world i st tr st2 tr3 heq
      refine ⟨st.url :: ds2, ?_, ?_⟩
      · rw [hds2, h1]
        simp
      · rw [hits, h2, traceItems]
        simp
    · case _ its2 tr3 heq =>
      injection h with ha hb
      subst ha
      subst hb
      obtain ⟨h1, h2⟩ := loopIter_done_spec world i st tr its2 tr3 heq
      refine ⟨[st.url], ?_, ?_⟩
      · rw [h1]
      · rw [h2]
        simp [traceItems]
    · exact CollectResult.noConfusion h

lemma stateAfter_spec (world : String → HttpOutcome) :
    ∀ n i st tr st2 tr2,
      stateAfter world n i st tr = some (st2, tr2) →
      ∃ ds, tr2 = tr ++ ds ∧ st2.items = st.items ++ traceItems world i ds ∧
        st2.readItem = st.readItem + ((traceItems world i ds).length : Int) ∧
        st.readItem ≤ st2.readItem := by
  intro n
  induction n with
  | zero =>
    intro i st tr st2 tr2 h
    simp only [stateAfter, Option.some.injEq, Prod.mk.injEq] at h
    obtain ⟨h1, h2⟩ := h
    subst h1
    subst h2
    exact ⟨[], by simp, by simp [traceItems], by simp [traceItems], le_refl _⟩
  | succ n ih =>
    intro i st tr st2 tr2 h
    simp only [stateAfter] at h
    split at h
    · case _ st3 tr3 heq =>
      obtain ⟨ds2, hds2, hits, hread, hle⟩ := ih (i + 1) st3 tr3 st2 tr2 h
      obtain ⟨h1, h2, h3, h4, -, -⟩ := loopIter_next_spec world i st tr st3 tr3 heq
      refine ⟨st.url :: ds2, ?_, ?_, ?_, ?_⟩
      · rw [hds2, h1]
        simp
      · rw [hits, h2, traceItems]
        simp
      · rw [hread, h3, traceItems, List.length_append]
        push_cast
        ring
      · exact le_trans h4 hle
    · exact Option.noConfusion h

lemma stateAfter_pos_total (world : String → HttpOutcome) :
    ∀ n i st tr st2 tr2, i ≠ 0 →
      stateAfter world n i st tr = some (st2, tr2) →
      st2.totalItem = st.totalItem := by
  intro n
  induction n with
  | zero =>
    intro i st tr st2 tr2 _ h
    simp only [stateAfter, Option.some.injEq, Prod.mk.injEq] at h
    rw [← h.1]
  | succ n ih =>
    intro i st tr st2 tr2 hi h
    simp only [stateAfter] at h
    split at h
    · case _ st3 tr3 heq =>
      obtain ⟨-, -, -, -, -, h6⟩ := loopIter_next_spec world i st tr st3 tr3 heq
      rw [ih (i + 1) st3 tr3 st2 tr2 (Nat.succ_ne_zero i) h, h6 hi]
    · exact Option.noConfusion h

lemma stateAfter_add (world : String → HttpOutcome) :
    ∀ a b i st tr,
      stateAfter world (a + b) i st tr =
        (stateAfter world a i st tr).bind
          (fun p => stateAfter world b (i + a) p.1 p.2) := by
  intro a
  induction a with
  | zero =>
    intro b i st tr
    simp [stateAfter]
  | succ a ih =>
    intro b i st tr
    have hn : a + 1 + b = (a + b) + 1 := by omega
    rw [hn]
    cases hli : loopIter world i st tr with
    | next st3 tr3 =>
      simp only [stateAfter, hli]
      rw [ih b (i + 1) st3 tr3]
      have harith : i + 1 + a = i + (a + 1) := by omega
      rw [harith]
    | done its tr3 => simp [stateAfter, hli]
    | failed e tr3 => simp [stateAfter, hli]

lemma loopIter_pageFailure (world : String → HttpOutcome) (i : Nat)
    (st : LoopState) (tr : List String) (e : FetchError)
    (h : pageFailure world i st.url = some e) :
    loopIter world i st tr = .failed e (tr ++ [st.url]) := by
  cases hw : world st.url with
  | transportFail =>
    simp [pageFailure, hw] at h
    subst h
    simp [loopIter, GetProgramData, hw]
  | response code b =>
    by_cases hc : code = 200
    · subst hc
      by_cases hi : i = 0
      · subst hi
        cases hf : b.asFirst with
        | none =>
          simp [pageFailure, hw, hf] at h
          subst h
          simp [loopIter, GetProgramData, hw, hf]
        | some pi =>
          exfalso
          simp [pageFailure, hw, hf] at h
      · cases hf : b.asNext with
        | none =>
          simp [pageFailure, hw, hf, hi] at h
          subst h
          simp [loopIter, GetProgramData, hw, hf, hi]
        | some pin =>
          exfalso
          simp [pageFailure, hw, hf, hi] at h
    · simp [pageFailure, hw, hc] at h
      subst h
      simp [loopIter, GetProgramData, hw, hc]

lemma GetProgramData_error_taxonomy (o : HttpOutcome) (e : FetchError)
    (h : GetProgramData o = .error e) :
    e = .transport ∨ ∃ c, c ≠ 200 ∧ e = .upstreamStatus c := by
  cases o with
  | transportFail =>
    simp [GetProgramData] at h
    left
    exact h.symm
  | response code b =>
    by_cases hc : code = 200
    · subst hc
      simp [GetProgramData] at h
    · simp [GetProgramData, hc] at h
      right
      exact ⟨code, hc, h.symm⟩

/-- Claim C1: when the first page is delivered with status 200, parses as
the first-page shape, and its total count equals the number of items on
that page, the loop terminates after exactly one fetch (the trace is the
initial URL alone) and returns exactly that page's items — regardless of
whether the page carries a non-empty next link. -/
theorem first_page_total_reached_one_fetch (world : String → HttpOutcome)
    (u0 : String) (fuel : Nat) (b : Body) (pi : ProgramInfo)
    (hw : world u0 = .response 200 b) (hp : b.asFirst = some pi)
    (ht : pi.totalEpisodes = (pi.episodes.items.length : Int)) :
    collect world u0 (fuel + 1) = .done pi.episodes.items [u0] := by
  have hli : loopIter world 0 ⟨0, 0, [], u0⟩ [] = .done pi.episodes.items [u0] := by
    by_cases hn : pi.episodes.next = ""
    · simp [loopIter, GetProgramData, hw, hp, hn]
    · simp [loopIter, GetProgramData, hw, hp, hn, ht]
  simp [collect, collectLoop, hli]

/-- Claim C2: every completed run returns exactly the concatenation of the
fetched pages' item lists, in fetch order and within each page in array
order, so the result's length is the sum of the per-page item counts. -/
theorem collect_concats_pages (world : String → HttpOutcome) (u0 : String)
    (fuel : Nat) (its : List Item) (tr : List String)
    (h : collect world u0 fuel = .done its tr) :
    its = traceItems world 0 tr ∧ its.length = sumPageLens world 0 tr := by
  simp only [collect] at h
  obtain ⟨ds, hds, hits⟩ :=
    collectLoop_done_spec world fuel 0 ⟨0, 0, [], u0⟩ [] its tr h
  simp only [List.nil_append] at hds hits
  subst hds
  exact ⟨hits, by rw [hits, traceItems_length]⟩

/-- Claim C3: a fetched page that parses with an empty next link makes the
loop terminate at that page unconditionally — no hypothesis on the counts
is needed, so in particular the loop stops even when the items seen so
far fall short of the expected total, returning the (short) accumulated
list. -/
theorem empty_next_unconditional_stop (world : String → HttpOutcome)
    (fuel i : Nat) (st : LoopState) (tr : List String) (b : Body)
    (ps : List Item)
    (hw : world st.url = .response 200 b)
    (hp : parsedPage b i = some (ps, "")) :
    collectLoop world (fuel + 1) i st tr =
      .done (st.items ++ ps) (tr ++ [st.url]) := by
  have hli : loopIter world i st tr = .done (st.items ++ ps) (tr ++ [st.url]) := by
    by_cases hi : i = 0
    · subst hi
      cases hf : b.asFirst with
      | none => exfalso; simp [parsedPage, hf] at hp
      | some pi =>
        simp [parsedPage, hf] at hp
        obtain ⟨hitems, hnext⟩ := hp
        subst hitems
        simp [loopIter, GetProgramData, hw, hf, hnext]
    · cases hf : b.asNext with
      | none => exfalso; simp [parsedPage, hf, hi] at hp
      | some pin =>
        simp [parsedPage, hf, hi] at hp
        obtain ⟨hitems, hnext⟩ := hp
        subst hitems
        simp [loopIter, GetProgramData, hw, hf, hi, hnext]
  simp [collectLoop, hli]

/-- Claim C5: at every reachable point of the loop, the running counter of
items seen equals the length of the accumulated item list and the sum of
the item counts of the pages fetched so far, and the counter never
decreases across iterations. -/
theorem seen_count_invariant (world : String → HttpOutcome) (u0 : String)
    (n : Nat) (st2 : LoopState) (tr2 : List String)
    (h : stateAfter world n 0 ⟨0, 0, [], u0⟩ [] = some (st2, tr2)) :
    st2.readItem = (st2.items.length : Int) ∧
    st2.readItem = (sumPageLens world 0 tr2 : Int) ∧
    st2.items = traceItems world 0 tr2 ∧
    (∀ m st3 tr3, m ≤ n →
      stateAfter world m 0 ⟨0, 0, [], u0⟩ [] = some (st3, tr3) →
      st3.readItem ≤ st2.readItem) := by
  obtain ⟨ds, hds, hitems, hread, -⟩ :=
    stateAfter_spec world n 0 _ [] st2 tr2 h
  simp only [List.nil_append] at hds hitems
  subst hds
  refine ⟨?_, ?_, hitems, ?_⟩
  · rw [hread, hitems]
    simp
  · rw [hread, traceItems_length]
    simp
  · intro m st3 tr3 hm h3
    obtain ⟨k, hk⟩ := Nat.le.dest hm
    rw [← hk] at h
    rw [stateAfter_add world m k 0 _ []] at h
    rw [h3] at h
    simp only [Option.some_bind] at h
    obtain ⟨-, -, -, -, hle⟩ := stateAfter_spec world k (0 + m) st3 tr3 st2 tr2 h
    exact hle

/-- Claim C6: a transport error, a non-200 status, or a parse failure on
any page fetch makes the whole collection abort at once with that error:
no item list is returned, the failing URL is fetched exactly once with
nothing after it, and the page fetcher itself only ever surfaces a
transport or upstream-status error. -/
theorem page_failure_aborts_run (world : String → HttpOutcome)
    (fuel i : Nat) (st : LoopState) (tr : List String) (e : FetchError)
    (h : pageFailure world i st.url = some e) :
    collectLoop world (fuel + 1) i st tr = .failed e (tr ++ [st.url]) ∧
    (∀ e2, GetProgramData (world st.url) = .error e2 →
      e2 = .transport ∨ ∃ c, c ≠ 200 ∧ e2 = .upstreamStatus c) := by
  refine ⟨?_, ?_⟩
  · have hli := loopIter_pageFailure world i st tr e h
    simp [collectLoop, hli]
  · intro e2 h2
    exact GetProgramData_error_taxonomy (world st.url) e2 h2

/-- Claim C7: the expected total is assigned exactly once, from the first
page's total-count metadata on iteration 0: at every later reachable
point its value is the one parsed from the first page, and no iteration
with a positive counter ever modifies it. -/
theorem total_set_once_from_first_page (world : String → HttpOutcome)
    (u0 : String) (n : Nat) (st2 : LoopState) (tr2 : List String)
    (hn : 1 ≤ n)
    (h : stateAfter world n 0 ⟨0, 0, [], u0⟩ [] = some (st2, tr2)) :
    firstPageTotal world u0 = some st2.totalItem ∧
    (∀ i st tr st3 tr3, i ≠ 0 → loopIter world i st tr = .next st3 tr3 →
      st3.totalItem = st.totalItem) := by
  refine ⟨?_, ?_⟩
  · obtain ⟨k, hk⟩ := Nat.le.dest hn
    rw [← hk] at h
    rw [stateAfter_add world 1 k 0 _ []] at h
    cases hli : loopIter world 0 ⟨0, 0, [], u0⟩ [] with
    | next st3 tr3 =>
      have h1 : stateAfter world 1 0 ⟨0, 0, [], u0⟩ [] = some (st3, tr3) := by
        simp [stateAfter, hli]
      rw [h1] at h
      simp only [Option.some_bind] at h
      have hpos := stateAfter_pos_total world k (0 + 1) st3 tr3 st2 tr2 (by omega) h
      obtain ⟨-, -, -, -, h5, -⟩ :=
        loopIter_next_spec world 0 ⟨0, 0, [], u0⟩ [] st3 tr3 hli
      rw [hpos]
      exact h5 rfl
    | done its tr3 =>
      exfalso
      have h1 : stateAfter world 1 0 ⟨0, 0, [], u0⟩ [] = none := by
        simp [stateAfter, hli]
      rw [h1] at h
      simp at h
    | failed e tr3 =>
      exfalso
      have h1 : stateAfter world 1 0 ⟨0, 0, [], u0⟩ [] = none := by
        simp [stateAfter, hli]
      rw [h1] at h
      simp at h
  · intro i st tr st3 tr3 hi hli
    exact (loopIter_next_spec world i st tr st3 tr3 hli).2.2.2.2.2 hi

/-- Claim C4: on the two-page input whose first page has total count 3,
items [A, B] and next link "page2", and whose second page has items [C]
and an empty next link, the loop performs exactly two fetches and returns
[A, B, C]. -/
theorem two_page_scenario_collects_all :
    collect c4World "page1" 9 = .done [epA, epB, epC] ["page1", "page2"] := by
  decide

theorem first_page_total_reached_one_fetch_witness :
    (c1World "start" = .response 200 c1Body ∧
      c1Body.asFirst = some c1PI ∧
      c1PI.totalEpisodes = (c1PI.episodes.items.length : Int)) ∧
    collect c1World "start" 5 = .done c1PI.episodes.items ["start"] :=
  ⟨⟨by decide, by decide, by decide⟩,
    first_page_total_reached_one_fetch c1World "start" 4 c1Body c1PI
      (by decide) (by decide) (by decide)⟩

theorem collect_concats_pages_witness :
    collect c2World "p0" 9 = .done [epA, epB, epC] ["p0", "p1"] ∧
    ([epA, epB, epC] = traceItems c2World 0 ["p0", "p1"] ∧
      ([epA, epB, epC] : List Item).length = sumPageLens c2World 0 ["p0", "p1"]) :=
  ⟨by decide, collect_concats_pages c2World "p0" 9 [epA, epB, epC] ["p0", "p1"] (by decide)⟩

theorem empty_next_unconditional_stop_witness :
    (c3World "p1" = .response 200 c3Body ∧
      parsedPage c3Body 1 = some ([epC], "")) ∧
    collectLoop c3World 5 1 ⟨10, 1, [epA], "p1"⟩ ["p0"] =
      .done ([epA] ++ [epC]) (["p0"] ++ ["p1"]) :=
  ⟨⟨by decide, by decide⟩,
    empty_next_unconditional_stop c3World 4 1 ⟨10, 1, [epA], "p1"⟩ ["p0"]
      c3Body [epC] (by decide) (by decide)⟩

theorem seen_count_invariant_witness :
    stateAfter c5World 1 0 ⟨0, 0, [], "q0"⟩ [] = some (c5St, ["q0"]) ∧
    (c5St.readItem = (c5St.items.length : Int) ∧
      c5St.readItem = (sumPageLens c5World 0 ["q0"] : Int) ∧
      c5St.items = traceItems c5World 0 ["q0"] ∧
      (∀ m st3 tr3, m ≤ 1 →
        stateAfter c5World m 0 ⟨0, 0, [], "q0"⟩ [] = some (st3, tr3) →
        st3.readItem ≤ c5St.readItem)) :=
  ⟨by decide, seen_count_invariant c5World "q0" 1 c5St ["q0"] (by decide)⟩

theorem page_failure_aborts_run_witness :
    pageFailure c6World 0 "e0" = some (.upstreamStatus 500) ∧
    (collectLoop c6World 4 0 ⟨0, 0, [], "e0"⟩ [] =
        .failed (.upstreamStatus 500) ["e0"] ∧
      (∀ e2, GetProgramData (c6World "e0") = .error e2 →
        e2 = .transport ∨ ∃ c, c ≠ 200 ∧ e2 = .upstreamStatus c)) :=
  ⟨by decide,
    page_failure_aborts_run c6World 3 0 ⟨0, 0, [], "e0"⟩ []
      (.upstreamStatus 500) (by decide)⟩

theorem total_set_once_from_first_page_witness :
    (1 ≤ 1 ∧
      stateAfter c7World 1 0 ⟨0, 0, [], "t0"⟩ [] = some (c7St, ["t0"])) ∧
    (firstPageTotal c7World "t0" = some c7St.totalItem ∧
      (∀ i st tr st3 tr3, i ≠ 0 →
        loopIter c7World i st tr = .next st3 tr3 →
        st3.totalItem = st.totalItem)) :=
  ⟨⟨by decide, by decide⟩,
    total_set_once_from_first_page c7World "t0" 1 c7St ["t0"]
      (by decide) (by decide)⟩

lemma filter_pageReq_eq_nil (us : List String) :
    (us.map Event.pageReq).filter isTokenReq = [] := by
  induction us with
  | nil => rfl
  | cons u us ih => simp [isTokenReq, ih]

/-- C8 counterexample: a 200 response whose body does not unmarshal as a
token response makes `GetAccessToken` fail with a parse error, which is
neither a bearer token nor a transport or upstream-status failure. -/
theorem token_failure_taxonomy_counterexample :
    GetAccessToken c8Config (.response 200 none) = .error .parse ∧
    (∀ t, GetAccessToken c8Config (.response 200 none) ≠ .ok t) ∧
    GetAccessToken c8Config (.response 200 none) ≠ .error .transport ∧
    (∀ c, GetAccessToken c8Config (.response 200 none) ≠
      .error (.upstreamStatus c)) := by
  refine ⟨rfl, ?_, ?_, ?_⟩
  · intro t h
    simp [GetAccessToken] at h
  · intro h
    simp [GetAccessToken] at h
  · intro c h
    simp [GetAccessToken] at h

/-- C8 (amended): each run issues exactly one token request, an HTTP
POST to the configured token URL whose form body carries
`grant_type=client_credentials` and the client credentials; the exchange
yields a bearer token or fails with a transport, upstream-status, or
parse error. -/
theorem token_exchange_once_spec (config : Config) (tok : TokenOutcome)
    (world : String → HttpOutcome) (fuel : Nat) :
    (mainEvents config tok world fuel).filter isTokenReq =
      [Event.tokenReq (buildTokenRequest config)] ∧
    (buildTokenRequest config).method = "POST" ∧
    (buildTokenRequest config).url = config.tokenURL ∧
    ("grant_type", "client_credentials") ∈ (buildTokenRequest config).formBody ∧
    ("client_id", config.clientID) ∈ (buildTokenRequest config).formBody ∧
    ("client_secret", config.clientSecret) ∈ (buildTokenRequest config).formBody ∧
    ((∃ t, GetAccessToken config tok = .ok t) ∨
      GetAccessToken config tok = .error .transport ∨
      (∃ c, GetAccessToken config tok = .error (.upstreamStatus c)) ∨
      GetAccessToken config tok = .error .parse) := by
  refine ⟨?_, rfl, rfl, ?_, ?_, ?_, ?_⟩
  · cases hga : GetAccessToken config tok with
    | error e => simp [mainEvents, hga, isTokenReq]
    | ok t => simp [mainEvents, hga, isTokenReq, filter_pageReq_eq_nil]
  · simp [buildTokenRequest]
  · simp [buildTokenRequest]
  · simp [buildTokenRequest]
  · cases tok with
    | transportFail =>
      right
      left
      rfl
    | response code body =>
      by_cases hc : code = 200
      · subst hc
        cases body with
        | none =>
          right
          right
          right
          simp [GetAccessToken]
        | some t =>
          left
          exact ⟨t, by simp [GetAccessToken]⟩
      · right
        right
        left
        exact ⟨code, by simp [GetAccessToken, hc]⟩

/-- Claim C9: the table-drop step returns success without attempting any
deletion when the describe-table probe fails (the probe's error is
swallowed), a delete is attempted exactly when session creation and the
probe both succeed, and then the delete call's own error is what
propagates. -/
theorem deleteTable_guarded_by_probe :
    (∀ e d, DeleteTable none (some e) d = ⟨none, false⟩) ∧
    (∀ d, DeleteTable none none d = ⟨d, true⟩) ∧
    (∀ e de d, DeleteTable (some e) de d = ⟨some e, false⟩) ∧
    (∀ s de d, (DeleteTable s de d).deleteAttempted =
      (s.isNone && de.isNone)) := by
  refine ⟨fun e d => rfl, fun d => rfl, fun e de d => rfl, ?_⟩
  intro s de d
  cases s <;> cases de <;> rfl

lemma mem_putRow (table : List Row) (r q : Row) (h : q ∈ putRow table r) :
    q = r ∨ q ∈ table := by
  unfold putRow at h
  split at h
  · obtain ⟨p, hp, hq⟩ := List.mem_map.1 h
    by_cases hb : (p.name == r.name) = true
    · rw [if_pos hb] at hq
      left
      exact hq.symm
    · rw [if_neg hb] at hq
      right
      rw [← hq]
      exact hp
  · rcases List.mem_append.1 h with h1 | h2
    · right
      exact h1
    · left
      simpa using h2

lemma names_map_replace (table : List Row) (r : Row) :
    (table.map (fun q => if q.name == r.name then r else q)).map Row.name =
      table.map Row.name := by
  induction table with
  | nil => rfl
  | cons p t ih =>
    simp only [List.map_cons, ih, List.cons.injEq, and_true]
    by_cases hb : (p.name == r.name) = true
    · rw [if_pos hb]
      exact (eq_of_beq hb).symm
    · rw [if_neg hb]

lemma nodup_names_putRow (table : List Row) (r : Row)
    (h : (table.map Row.name).Nodup) :
    ((putRow table r).map Row.name).Nodup := by
  unfold putRow
  split
  · rw [names_map_replace]
    exact h
  · rename_i hany
    rw [List.map_append, List.nodup_append]
    refine ⟨h, by simp, ?_⟩
    intro x hx hx2
    simp only [List.map_cons, List.map_nil, List.mem_singleton] at hx2
    subst hx2
    obtain ⟨p, hp, hpn⟩ := List.mem_map.1 hx
    apply hany
    refine List.any_eq_true.2 ⟨p, hp, ?_⟩
    simp [hpn]

lemma find_replace_self (table : List Row) (r : Row)
    (h : table.any (fun q => q.name == r.name) = true) :
    lookupRow (table.map (fun q => if q.name == r.name then r else q))
      r.name = some r := by
  induction table with
  | nil => simp at h
  | cons p t ih =>
    simp only [List.any_cons, Bool.or_eq_true] at h
    simp only [List.map_cons, lookupRow]
    by_cases hb : (p.name == r.name) = true
    · rw [if_pos hb]
      rw [List.find?_cons_of_pos _ (by simp)]
    · rw [if_neg hb]
      rcases h with h1 | h2
      · exact absurd h1 hb
      · rw [List.find?_cons_of_neg _ (by simpa using hb)]
        exact ih h2

lemma find_append_self (table : List Row) (r : Row)
    (h : table.any (fun q => q.name == r.name) = false) :
    lookupRow (table ++ [r]) r.name = some r := by
  rw [lookupRow, List.find?_append]
  have h1 : table.find? (fun q => q.name == r.name) = none := by
    rw [List.find?_eq_none]
    intro x hx
    have := List.any_eq_false.1 h x hx
    simpa using this
  rw [h1]
  simp [List.find?]

lemma find_replace_ne (table : List Row) (r : Row) (n : String)
    (h : r.name ≠ n) :
    lookupRow (table.map (fun q => if q.name == r.name then r else q)) n =
      lookupRow table n := by
  induction table with
  | nil => rfl
  | cons p t ih =>
    simp only [List.map_cons, lookupRow] at ih ⊢
    by_cases hb : (p.name == r.name) = true
    · rw [if_pos hb]
      have hpr : p.name = r.name := eq_of_beq hb
      have hrn : (r.name == n) = false := beq_eq_false_iff_ne.2 h
      have hpn : (p.name == n) = false := by rw [hpr]; exact hrn
      rw [List.find?_cons_of_neg _ (by simp [hrn]),
        List.find?_cons_of_neg _ (by simp [hpn])]
      exact ih
    · rw [if_neg hb]
      by_cases hpn : (p.name == n) = true
      · rw [List.find?_cons_of_pos _ (by simpa using hpn),
          List.find?_cons_of_pos _ (by simpa using hpn)]
      · rw [List.find?_cons_of_neg _ (by simpa using hpn),
          List.find?_cons_of_neg _ (by simpa using hpn)]
        exact ih

lemma find_append_ne (table : List Row) (r : Row) (n : String)
    (h : r.name ≠ n) :
    lookupRow (table ++ [r]) n = lookupRow table n := by
  rw [lookupRow, List.find?_append]
  have h1 : ([r].find? (fun q => q.name == n)) = none := by
    have hrn : (r.name == n) = false := beq_eq_false_iff_ne.2 h
    simp [List.find?, hrn]
  rw [h1, Option.or_none]
  rfl

lemma lookupRow_putRow_self (table : List Row) (r : Row) :
    lookupRow (putRow table r) r.name = some r := by
  unfold putRow
  split
  · rename_i hany
    exact find_replace_self table r hany
  · rename_i hany
    exact find_append_self table r (by rwa [Bool.not_eq_true] at hany)

lemma lookupRow_putRow_ne (table : List Row) (r : Row) (n : String)
    (h : r.name ≠ n) :
    lookupRow (putRow table r) n = lookupRow table n := by
  unfold putRow
  split
  · exact find_replace_ne table r n h
  · exact find_append_ne table r n h

lemma putItem_append_single (items : List Item) (a : Item)
    (table : List Row) :
    PutItem (items ++ [a]) table = putRow (PutItem items table) (itemToRow a) := by
  simp [PutItem, List.foldl_append]

lemma putItem_mem (items : List Item) :
    ∀ r ∈ PutItem items [], ∃ it, it ∈ items ∧ r = itemToRow it := by
  induction items using List.reverseRecOn with
  | nil =>
    intro r hr
    simp [PutItem] at hr
  | append_singleton l a ih =>
    intro r hr
    rw [putItem_append_single] at hr
    rcases mem_putRow _ _ _ hr with h1 | h2
    · exact ⟨a, by simp, h1⟩
    · obtain ⟨it, hit, heq⟩ := ih r h2
      exact ⟨it, by simp [hit], heq⟩

lemma putItem_nodup (items : List Item) :
    ((PutItem items []).map Row.name).Nodup := by
  induction items using List.reverseRecOn with
  | nil => simp [PutItem]
  | append_singleton l a ih =>
    rw [putItem_append_single]
    exact nodup_names_putRow _ _ ih

lemma putItem_lookup (items : List Item) (n : String) :
    lookupRow (PutItem items []) n =
      Option.map itemToRow ((items.filter (fun it => it.name == n)).getLast?) := by
  induction items using List.reverseRecOn with
  | nil => rfl
  | append_singleton l a ih =>
    rw [putItem_append_single]
    by_cases hb : (a.name == n) = true
    · have han : a.name = n := eq_of_beq hb
      have hfil : List.filter (fun it => it.name == n) (l ++ [a]) =
          List.filter (fun it => it.name == n) l ++ [a] := by
        rw [List.filter_append]
        simp [List.filter_cons, hb]
      rw [hfil, List.getLast?_concat]
      have hn2 : n = (itemToRow a).name := by simp [itemToRow, han]
      rw [hn2, lookupRow_putRow_self]
      rfl
    · have hnn : (itemToRow a).name ≠ n := by
        simpa [itemToRow] using (by simpa using hb : ¬(a.name = n))
      rw [lookupRow_putRow_ne _ _ _ hnn, ih]
      rw [List.filter_append]
      simp only [List.filter_cons, hb, List.filter_nil]
      simp

/-- Claim C10: the sink projects each episode to exactly the two
attributes Name and Description, the destination table's sole hash key
is Name, the stored table holds at most one row per distinct name, and
the row stored under a name carries the description of the last collected
episode with that name (later writes overwrite earlier ones). -/
theorem putItem_name_keyed_overwrite (items : List Item) :
    CreateTable.hashKey = "Name" ∧
    (∀ r, r ∈ PutItem items [] → ∃ it, it ∈ items ∧ r = itemToRow it) ∧
    ((PutItem items []).map Row.name).Nodup ∧
    (∀ n, lookupRow (PutItem items []) n =
      Option.map itemToRow ((items.filter (fun it => it.name == n)).getLast?)) :=
  ⟨rfl, putItem_mem items, putItem_nodup items, fun n => putItem_lookup items n⟩

theorem putItem_name_keyed_overwrite_witness :
    CreateTable.hashKey = "Name" ∧
    (∀ r, r ∈ PutItem [epA, epB, epA2] [] →
      ∃ it, it ∈ [epA, epB, epA2] ∧ r = itemToRow it) ∧
    ((PutItem [epA, epB, epA2] []).map Row.name).Nodup ∧
    (∀ n, lookupRow (PutItem [epA, epB, epA2] []) n =
      Option.map itemToRow
        (([epA, epB, epA2].filter (fun it => it.name == n)).getLast?)) :=
  putItem_name_keyed_overwrite [epA, epB, epA2]
